import Mathlib

/-!
Verification of the TVS-Request stationery tracker (`src/App.tsx`).

The application state is a list of reports plus a stock ledger.  JavaScript
objects (`Record<string, ...>`) are modelled as insertion-ordered association
lists from `String` keys; JS numbers occurring in the ledger arithmetic are
modelled as `Int`.  Each `handle*` definition below is a direct translation of
the correspondingly named callback in `src/App.tsx`.
-/

set_option maxHeartbeats 1000000

namespace TVS

/-- Stock ledger entry (`StockItem` in `src/App.tsx`). -/
structure StockItem where
  quantity : Int
  lastInDate : String
  lastOutDate : String
  lastUpdateQuantity : Int
deriving DecidableEq

/-- Report status (`'Process' | 'Done'`). -/
inductive Status where
  | Process
  | Done
deriving DecidableEq

/-- A report's items map `Record<string, number>`: association list from item
name to quantity, insertion ordered, keys unique in states produced by the UI. -/
abbrev Items := List (String × Int)

/-- A committed report (`Report` in `src/types.ts`). -/
structure Report where
  id : String
  requesterName : String
  campus : String
  importDate : String
  exportDate : String
  items : Items
  status : Status
deriving DecidableEq

/-- The form draft: a report minus its id (`Omit<Report, 'id'>`). -/
structure FormData where
  requesterName : String
  campus : String
  importDate : String
  exportDate : String
  items : Items
  status : Status
deriving DecidableEq

/-- The stock ledger `Record<string, StockItem>`. -/
abbrev Stock := List (String × StockItem)

/-- The two state slices touched by report-lifecycle reconciliation. -/
structure AppState where
  reports : List Report
  stock : Stock
deriving DecidableEq

/-- First-match association-list lookup, modelling JS property access `m[k]`. -/
def alookup {α : Type} : List (String × α) → String → Option α
  | [], _ => none
  | p :: ps, k => if p.1 = k then some p.2 else alookup ps k

/-- The key list of an association list (`Object.keys`). -/
def keys {α : Type} (m : List (String × α)) : List String :=
  m.map (fun p => p.1)

/-- Pointwise update of the entry at key `k`, a no-op when the key is absent:
models the guarded JS mutation `if (newStock[item]) { ...mutate... }`. -/
def setEntry (st : Stock) (k : String) (f : StockItem → StockItem) : Stock :=
  st.map (fun p => (p.1, if p.1 = k then f p.2 else p.2))

/-- JS object spread update `{...m, [k]: v}`: replaces in place if the key
exists, appends otherwise. -/
def upsert {α : Type} (m : List (String × α)) (k : String) (v : α) :
    List (String × α) :=
  if (alookup m k).isSome then
    m.map (fun p => (p.1, if p.1 = k then v else p.2))
  else m ++ [(k, v)]

/-- JS `delete m[k]`. -/
def removeKey {α : Type} (m : List (String × α)) (k : String) :
    List (String × α) :=
  m.filter (fun p => !(p.1 == k))

theorem alookup_map_keyed {α β : Type} (g : String → α → β)
    (m : List (String × α)) (k : String) :
    alookup (m.map (fun p => (p.1, g p.1 p.2))) k = (alookup m k).map (g k) := by
  induction m with
  | nil => rfl
  | cons p ps ih =>
    by_cases h : p.1 = k
    · simp only [List.map_cons, alookup, if_pos h, Option.map_some]
      rw [h]
      rfl
    · simp only [List.map_cons, alookup, if_neg h, ih]

theorem alookup_setEntry (st : Stock) (k k' : String) (f : StockItem → StockItem) :
    alookup (setEntry st k f) k' =
      if k' = k then (alookup st k').map f else alookup st k' := by
  have h := alookup_map_keyed (fun a v => if a = k then f v else v) st k'
  rw [show setEntry st k f
      = st.map (fun p => (p.1, (fun a v => if a = k then f v else v) p.1 p.2)) from rfl, h]
  by_cases hk : k' = k
  · simp [hk]
  · simp [hk]

theorem keys_setEntry (st : Stock) (k : String) (f : StockItem → StockItem) :
    keys (setEntry st k f) = keys st := by
  simp only [keys, setEntry, List.map_map]
  rfl

theorem alookup_eq_none_iff {α : Type} (m : List (String × α)) (k : String) :
    alookup m k = none ↔ k ∉ keys m := by
  induction m with
  | nil => simp [alookup, keys]
  | cons p ps ih =>
    by_cases h : p.1 = k
    · simp [alookup, keys, h]
    · simp only [alookup, if_neg h, ih, keys, List.map_cons, List.mem_cons]
      constructor
      · intro hn hx
        rcases hx with h1 | h2
        · exact h h1.symm
        · exact hn h2
      · intro hn hm
        exact hn (Or.inr hm)

theorem alookup_append {α : Type} (m m' : List (String × α)) (k : String) :
    alookup (m ++ m') k = ((alookup m k).or (alookup m' k)) := by
  induction m with
  | nil => simp [alookup]
  | cons p ps ih =>
    by_cases h : p.1 = k
    · simp [alookup, h]
    · simp [alookup, h, ih]

/-- Key deduplication keeping first occurrences, modelling
`new Set([...keys(a), ...keys(b)])` iteration order. -/
def dedupKeys : List String → List String
  | [] => []
  | k :: ks => k :: (dedupKeys ks).filter (fun x => !(x == k))

theorem mem_dedupKeys (L : List String) (x : String) :
    x ∈ dedupKeys L ↔ x ∈ L := by
  induction L with
  | nil => simp [dedupKeys]
  | cons a L ih =>
    by_cases h : x = a
    · simp [dedupKeys, h]
    · simp [dedupKeys, List.mem_filter, h, ih]

theorem nodup_dedupKeys (L : List String) : (dedupKeys L).Nodup := by
  induction L with
  | nil => simp [dedupKeys]
  | cons a L ih =>
    refine List.nodup_cons.mpr ⟨?_, ih.filter _⟩
    intro hmem
    have := (List.mem_filter.mp hmem).2
    simp at this

/-- Fold a per-item `StockItem` rewrite over an items list; the shape shared by
the deduction and add-back loops in `src/App.tsx`. -/
def stepItems (f : String → Int → StockItem → StockItem) (st : Stock)
    (items : Items) : Stock :=
  items.foldl (fun acc iq => setEntry acc iq.1 (f iq.1 iq.2)) st

theorem alookup_stepItems_not_mem (f : String → Int → StockItem → StockItem)
    (st : Stock) (items : Items) (k : String) (h : k ∉ keys items) :
    alookup (stepItems f st items) k = alookup st k := by
  induction items generalizing st with
  | nil => rfl
  | cons a rest ih =>
    simp only [keys, List.map_cons, List.mem_cons] at h
    push_neg at h
    simp only [stepItems, List.foldl_cons]
    rw [show List.foldl (fun acc iq => setEntry acc iq.1 (f iq.1 iq.2))
          (setEntry st a.1 (f a.1 a.2)) rest
        = stepItems f (setEntry st a.1 (f a.1 a.2)) rest from rfl]
    rw [ih _ (by simpa [keys] using h.2), alookup_setEntry, if_neg h.1]

theorem alookup_stepItems_mem (f : String → Int → StockItem → StockItem)
    (st : Stock) (items : Items) (k : String) (q : Int)
    (hnd : (keys items).Nodup) (h : (k, q) ∈ items) :
    alookup (stepItems f st items) k = (alookup st k).map (f k q) := by
  induction items generalizing st with
  | nil => cases h
  | cons a rest ih =>
    simp only [keys, List.map_cons, List.nodup_cons] at hnd
    simp only [stepItems, List.foldl_cons]
    rw [show List.foldl (fun acc iq => setEntry acc iq.1 (f iq.1 iq.2))
          (setEntry st a.1 (f a.1 a.2)) rest
        = stepItems f (setEntry st a.1 (f a.1 a.2)) rest from rfl]
    rcases List.mem_cons.mp h with rfl | hmem
    · rw [alookup_stepItems_not_mem _ _ _ _ (by simpa [keys] using hnd.1),
        alookup_setEntry, if_pos rfl]
    · have hk : k ∈ keys rest := by
        simp only [keys, List.mem_map]
        exact ⟨(k, q), hmem, rfl⟩
      have hne : ¬ k = a.1 := by
        intro he
        exact hnd.1 (he ▸ hk)
      rw [ih _ (by simpa [keys] using hnd.2) hmem, alookup_setEntry, if_neg hne]

theorem keys_stepItems (f : String → Int → StockItem → StockItem) (st : Stock)
    (items : Items) : keys (stepItems f st items) = keys st := by
  induction items generalizing st with
  | nil => rfl
  | cons a rest ih =>
    simp only [stepItems, List.foldl_cons]
    rw [show List.foldl (fun acc iq => setEntry acc iq.1 (f iq.1 iq.2))
          (setEntry st a.1 (f a.1 a.2)) rest
        = stepItems f (setEntry st a.1 (f a.1 a.2)) rest from rfl]
    rw [ih, keys_setEntry]

/-- Fold a per-key `StockItem` rewrite over a key list; the shape of the
Done→Done reconciliation loop in `handleUpdateReport`. -/
def stepKeys (g : String → StockItem → StockItem) (st : Stock)
    (L : List String) : Stock :=
  L.foldl (fun acc k => setEntry acc k (g k)) st

theorem alookup_stepKeys_not_mem (g : String → StockItem → StockItem)
    (st : Stock) (L : List String) (k : String) (h : k ∉ L) :
    alookup (stepKeys g st L) k = alookup st k := by
  induction L generalizing st with
  | nil => rfl
  | cons a rest ih =>
    simp only [List.mem_cons] at h
    push_neg at h
    simp only [stepKeys, List.foldl_cons]
    rw [show List.foldl (fun acc k' => setEntry acc k' (g k'))
          (setEntry st a (g a)) rest
        = stepKeys g (setEntry st a (g a)) rest from rfl]
    rw [ih _ h.2, alookup_setEntry, if_neg h.1]

theorem alookup_stepKeys_mem (g : String → StockItem → StockItem)
    (st : Stock) (L : List String) (k : String)
    (hnd : L.Nodup) (h : k ∈ L) :
    alookup (stepKeys g st L) k = (alookup st k).map (g k) := by
  induction L generalizing st with
  | nil => cases h
  | cons a rest ih =>
    simp only [List.nodup_cons] at hnd
    simp only [stepKeys, List.foldl_cons]
    rw [show List.foldl (fun acc k' => setEntry acc k' (g k'))
          (setEntry st a (g a)) rest
        = stepKeys g (setEntry st a (g a)) rest from rfl]
    rcases List.mem_cons.mp h with rfl | hmem
    · rw [alookup_stepKeys_not_mem _ _ _ _ hnd.1, alookup_setEntry, if_pos rfl]
    · have hne : ¬ k = a := by
        intro he
        exact hnd.1 (he ▸ hmem)
      rw [ih _ hnd.2 hmem, alookup_setEntry, if_neg hne]

theorem keys_stepKeys (g : String → StockItem → StockItem) (st : Stock)
    (L : List String) : keys (stepKeys g st L) = keys st := by
  induction L generalizing st with
  | nil => rfl
  | cons a rest ih =>
    simp only [stepKeys, List.foldl_cons]
    rw [show List.foldl (fun acc k' => setEntry acc k' (g k'))
          (setEntry st a (g a)) rest
        = stepKeys g (setEntry st a (g a)) rest from rfl]
    rw [ih, keys_setEntry]

/-- Model of `stock[item]?.quantity || 0` — the available quantity of an item,
zero when the item is not in the ledger. -/
def availQty (stock : Stock) (k : String) : Int :=
  match alookup stock k with
  | some s => s.quantity
  | none => 0

/-- One entry of the insufficient-stock message
`item (requested q, available a)`. -/
structure Shortfall where
  item : String
  requested : Int
  available : Int
deriving DecidableEq

/-- The `insufficientItems` list built by `handleAddReport` and by the
Process→Done branch of `handleUpdateReport`. -/
def shortfalls (stock : Stock) (items : Items) : List Shortfall :=
  items.filterMap (fun iq =>
    if availQty stock iq.1 < iq.2 then some ⟨iq.1, iq.2, availQty stock iq.1⟩
    else none)

/-- Model of `Number(items[k] || 0)` — an item's quantity in a report's map, zero when
absent. -/
def itemQ (items : Items) (k : String) : Int :=
  (alookup items k).getD 0

/-- The `insufficientItems` list built by the Done→Done branch of
`handleUpdateReport`: only positive per-item deltas are checked. -/
def deltaShortfalls (stock : Stock) (orig upd : Items) : List Shortfall :=
  (dedupKeys (keys orig ++ keys upd)).filterMap (fun k =>
    if 0 < itemQ upd k - itemQ orig k
        ∧ availQty stock k < itemQ upd k - itemQ orig k then
      some ⟨k, itemQ upd k - itemQ orig k, availQty stock k⟩
    else none)

/-- Stock deduction loop of `handleAddReport` and of the Process→Done branch
of `handleUpdateReport`. -/
def deductItems (stock : Stock) (items : Items) (today : String) : Stock :=
  stepItems
    (fun _ q s =>
      { s with quantity := s.quantity - q, lastOutDate := today,
               lastUpdateQuantity := -q })
    stock items

/-- Add-back loop of `handleConfirmDelete` and of the Done→Process branch of
`handleUpdateReport`. -/
def addBackItems (stock : Stock) (items : Items) (today : String) : Stock :=
  stepItems
    (fun _ q s =>
      { s with quantity := s.quantity + q, lastInDate := today,
               lastUpdateQuantity := q })
    stock items

/-- Per-item rewrite of the Done→Done branch of `handleUpdateReport`:
`delta = originalQty - updatedQty`, applied only when nonzero. -/
def doneDoneUpd (orig upd : Items) (today : String) (k : String)
    (s : StockItem) : StockItem :=
  if itemQ orig k - itemQ upd k = 0 then s
  else
    { quantity := s.quantity + (itemQ orig k - itemQ upd k),
      lastUpdateQuantity := itemQ orig k - itemQ upd k,
      lastInDate := if 0 < itemQ orig k - itemQ upd k then today else s.lastInDate,
      lastOutDate := if 0 < itemQ orig k - itemQ upd k then s.lastOutDate else today }

/-- The whole Done→Done stock reconciliation of `handleUpdateReport`. -/
def applyDoneDone (stock : Stock) (orig upd : Items) (today : String) : Stock :=
  stepKeys (doneDoneUpd orig upd today) stock (dedupKeys (keys orig ++ keys upd))

/-- The required-field validation at the top of `handleAddReport`. -/
def formComplete (f : FormData) : Bool :=
  !(f.requesterName == "") && !(f.campus == "") && !(f.importDate == "")
    && !(f.exportDate == "")

/-- The two user-facing rejection messages of `handleAddReport`. -/
inductive AddError where
  | missingFields
  | insufficient (sf : List Shortfall)
deriving DecidableEq

/-- The merge `{ id, ...formData }`. -/
def mkReport (id : String) (f : FormData) : Report :=
  { id := id, requesterName := f.requesterName, campus := f.campus,
    importDate := f.importDate, exportDate := f.exportDate,
    items := f.items, status := f.status }

/-- Model of `handleAddReport` (src/App.tsx:407-451): validate fields, on status Done
check stock and either reject with the itemized shortfall list or deduct, then
append the new report. -/
def handleAddReport (st : AppState) (form : FormData) (id today : String) :
    AppState × Option AddError :=
  if !(formComplete form) then (st, some .missingFields)
  else if form.status = .Done then
    if shortfalls st.stock form.items = [] then
      ({ reports := st.reports ++ [mkReport id form],
         stock := deductItems st.stock form.items today }, none)
    else (st, some (.insufficient (shortfalls st.stock form.items)))
  else ({ st with reports := st.reports ++ [mkReport id form] }, none)

/-- The pre-update stock check of `handleUpdateReport` (src/App.tsx:478-504),
by status transition. -/
def updateShortfalls (stock : Stock) (origStatus : Status) (origItems : Items)
    (updStatus : Status) (updItems : Items) : List Shortfall :=
  match origStatus, updStatus with
  | .Process, .Done => shortfalls stock updItems
  | .Done, .Done => deltaShortfalls stock origItems updItems
  | _, _ => []

/-- The stock reconciliation of `handleUpdateReport` (src/App.tsx:507-554),
by status transition. -/
def updateStock (stock : Stock) (origStatus : Status) (origItems : Items)
    (updStatus : Status) (updItems : Items) (today : String) : Stock :=
  match origStatus, updStatus with
  | .Process, .Done => deductItems stock updItems today
  | .Done, .Process => addBackItems stock origItems today
  | .Done, .Done => applyDoneDone stock origItems updItems today
  | .Process, .Process => stock

/-- Model of `handleUpdateReport` (src/App.tsx:467-563): find the original report, run
the transition's stock check, and either reject with the shortfall list or
reconcile stock and replace the report in place. -/
def handleUpdateReport (st : AppState) (selId : String) (form : FormData)
    (today : String) : AppState × Option (List Shortfall) :=
  match st.reports.find? (fun r => r.id == selId) with
  | none => (st, none)
  | some orig =>
    if updateShortfalls st.stock orig.status orig.items
        form.status form.items = [] then
      ({ reports := st.reports.map
           (fun r => if r.id == selId then mkReport r.id form else r),
         stock := updateStock st.stock orig.status orig.items
                    form.status form.items today }, none)
    else (st, some (updateShortfalls st.stock orig.status orig.items
                      form.status form.items))

/-- Model of `handleConfirmDelete` (src/App.tsx:565-591): add a Done report's items
back to stock, then remove the report. -/
def handleConfirmDelete (st : AppState) (selId today : String) : AppState :=
  { reports := st.reports.filter (fun r => !(r.id == selId)),
    stock :=
      match st.reports.find? (fun r => r.id == selId) with
      | some r =>
        if r.status = .Done then addBackItems st.stock r.items today
        else st.stock
      | none => st.stock }

/-- Model of `handleConfirmClearStock` (src/App.tsx:1029-1039): every entry is replaced
by `{ quantity: 0, lastInDate: '', lastOutDate: '', lastUpdateQuantity: 0 }`. -/
def handleConfirmClearStock (stock : Stock) : Stock :=
  stock.map (fun p =>
    (p.1, { quantity := 0, lastInDate := "", lastOutDate := "",
            lastUpdateQuantity := 0 }))

/-- JavaScript `Date.prototype.getDay` on a calendar date given as days since
1970-01-01 (a Thursday): 0 = Sunday, ..., 6 = Saturday. -/
def jsGetDay (d : Int) : Int := (d + 4) % 7

/-- Model of `getStartOfWeek` (src/App.tsx:611-616) on days since the epoch: JS
`setDate(getDate() - day + (day === 0 ? -6 : 1))` shifts the date itself by
`-day + (day === 0 ? -6 : 1)` days. -/
def getStartOfWeek (d : Int) : Int :=
  d - jsGetDay d + (if jsGetDay d = 0 then -6 else 1)

/-- Days since 1970-01-01 of a civil date (proleptic Gregorian); used only to
name concrete calendar dates in witnesses. -/
def daysFromCivil (y m d : Int) : Int :=
  let y' := if m ≤ 2 then y - 1 else y
  let era := (if 0 ≤ y' then y' else y' - 399) / 400
  let yoe := y' - era * 400
  let mp := (m + 9) % 12
  let doy := (153 * mp + 2) / 5 + d - 1
  let doe := yoe * 365 + yoe / 4 - yoe / 100 + doy
  era * 146097 + doe - 719468

/-- Whitespace skipped by JS `parseInt` (common cases). -/
def isSpaceChar (c : Char) : Bool :=
  c == ' ' || c == '\t' || c == '\n' || c == '\r'

/-- Decimal value of a digit run. -/
def digitsToNat (ds : List Char) : Nat :=
  ds.foldl (fun acc c => acc * 10 + (c.toNat - 48)) 0

/-- JS `parseInt(value, 10)`: skip whitespace, optional sign, longest leading
digit run; `none` models `NaN`. -/
def jsParseInt (s : String) : Option Int :=
  let cs := s.data.dropWhile isSpaceChar
  let signRest : Int × List Char :=
    match cs with
    | '-' :: r => (-1, r)
    | '+' :: r => (1, r)
    | r => (1, r)
  let ds := signRest.2.takeWhile Char.isDigit
  if ds = [] then none else some (signRest.1 * (digitsToNat ds : Int))

/-- Model of `handleItemQuantityChange` (src/App.tsx:389-400): a parsed positive
quantity is stored, anything else removes the entry. -/
def handleItemQuantityChange (items : Items) (item value : String) : Items :=
  match jsParseInt value with
  | some q => if 0 < q then upsert items item q else removeKey items item
  | none => removeKey items item

/-- The all-zero `StockItem` used as fallback throughout `src/App.tsx`. -/
def emptyStockItem : StockItem :=
  { quantity := 0, lastInDate := "", lastOutDate := "", lastUpdateQuantity := 0 }

/-- Model of `handleTempStockChange` (src/App.tsx:977-989): `NaN` and negative input
are coerced to 0 before being put in the temp ledger. -/
def handleTempStockChange (temp : Stock) (item value : String) : Stock :=
  upsert temp item
    { (alookup temp item).getD emptyStockItem with
      quantity :=
        match jsParseInt value with
        | none => 0
        | some n => if n < 0 then 0 else n }

/-- Per-entry commit rule of `handleSaveStock`: derive dates and the last
delta from the comparison with the previous ledger entry (zeros if absent). -/
def saveStockEntry (stock : Stock) (today k : String) (s : StockItem) :
    StockItem :=
  if s.quantity - ((alookup stock k).getD emptyStockItem).quantity = 0 then
    { s with
      lastInDate := ((alookup stock k).getD emptyStockItem).lastInDate,
      lastOutDate := ((alookup stock k).getD emptyStockItem).lastOutDate,
      lastUpdateQuantity :=
        ((alookup stock k).getD emptyStockItem).lastUpdateQuantity }
  else if 0 < s.quantity - ((alookup stock k).getD emptyStockItem).quantity then
    { s with
      lastUpdateQuantity :=
        s.quantity - ((alookup stock k).getD emptyStockItem).quantity,
      lastInDate := today,
      lastOutDate := ((alookup stock k).getD emptyStockItem).lastOutDate }
  else
    { s with
      lastUpdateQuantity :=
        s.quantity - ((alookup stock k).getD emptyStockItem).quantity,
      lastOutDate := today,
      lastInDate := ((alookup stock k).getD emptyStockItem).lastInDate }

/-- Model of `handleSaveStock` (src/App.tsx:991-1022): commit the temp ledger. -/
def handleSaveStock (stock temp : Stock) (today : String) : Stock :=
  temp.map (fun p => (p.1, saveStockEntry stock today p.1 p.2))

/-- A JSON value, for the persisted legacy shapes and the parsed AI payload. -/
inductive JVal where
  | null
  | bool (b : Bool)
  | num (n : Int)
  | str (s : String)
  | arr (elems : List JVal)
  | obj (fields : List (String × JVal))

/-- JS truthiness of a JSON value. -/
def jTruthy : JVal → Bool
  | .null => false
  | .bool b => b
  | .num n => !(n == 0)
  | .str s => !(s == "")
  | .arr _ => true
  | .obj _ => true

/-- String view of a JSON value kept by a truthy `x || ''`; numeric is the only
non-string case the data can realistically carry. -/
def jToStr : JVal → String
  | .null => ""
  | .bool b => if b then "true" else "false"
  | .num n => toString n
  | .str s => s
  | .arr _ => "[array]"
  | .obj _ => "[object Object]"

/-- The coercion `x || ''`. -/
def jStrOrEmpty (v : JVal) : String :=
  if jTruthy v then jToStr v else ""

/-- The coercion `Number(x) || 0` for the JSON values the stored data carries (numbers);
non-numeric values coerce to 0. -/
def jNumOrZero : JVal → Int
  | .num n => n
  | _ => 0

/-- Per-item stock migration inside the `useState` initializer
(src/App.tsx:270-299): bare number, `{quantity, dateAdded}` shape, current
shape, invalid data, and absent entry. -/
def migrateStockEntry (today : String) (v : Option JVal) : StockItem :=
  match v with
  | some (.num n) =>
    { quantity := n, lastInDate := today, lastOutDate := "",
      lastUpdateQuantity := 0 }
  | some (.obj fields) =>
    if (alookup fields "dateAdded").isSome then
      { quantity := jNumOrZero ((alookup fields "quantity").getD .null),
        lastInDate :=
          (let d := (alookup fields "dateAdded").getD .null
           if jTruthy d then jToStr d else today),
        lastOutDate := "", lastUpdateQuantity := 0 }
    else if (alookup fields "quantity").isSome
        && (alookup fields "lastInDate").isSome then
      { quantity := jNumOrZero ((alookup fields "quantity").getD .null),
        lastInDate := jStrOrEmpty ((alookup fields "lastInDate").getD .null),
        lastOutDate := jStrOrEmpty ((alookup fields "lastOutDate").getD .null),
        lastUpdateQuantity :=
          jNumOrZero ((alookup fields "lastUpdateQuantity").getD .null) }
    else emptyStockItem
  | some _ => emptyStockItem
  | none => emptyStockItem

/-- Property access `v[k]` yielding `undefined` (here `none`) off objects. -/
def getField (v : JVal) (k : String) : Option JVal :=
  match v with
  | .obj fields => alookup fields k
  | _ => none

/-- Model of `item.items && typeof item.items === 'object' && !Array.isArray(item.items)
? item.items : {}` — the imported items map is copied verbatim (values taken
with the numeric coercion the ledger arithmetic later applies). -/
def importedItems : JVal → Items
  | .obj fields => fields.map (fun p => (p.1, jNumOrZero p.2))
  | _ => []

/-- Coercion of one imported report entry (src/App.tsx:923-937); a `null`
element throws a TypeError that fails the whole import. -/
def coerceImportedReport (id : String) (v : JVal) : Except String Report :=
  match v with
  | .null => .error "TypeError: cannot read properties of null"
  | item =>
    .ok { id := id,
          requesterName := jStrOrEmpty ((getField item "requesterName").getD .null),
          campus := jStrOrEmpty ((getField item "campus").getD .null),
          importDate := jStrOrEmpty ((getField item "importDate").getD .null),
          exportDate := jStrOrEmpty ((getField item "exportDate").getD .null),
          items := importedItems ((getField item "items").getD .null),
          status :=
            (match (getField item "status").getD .null with
             | .str s => if s = "Done" then Status.Done else Status.Process
             | _ => Status.Process) }

/-- Import-run report identifier (opaque in the source: timestamp + random). -/
def importId (n : Nat) : String := "imported-" ++ toString n

/-- Coerce every imported report entry, then drop entries missing requester,
campus or import date (src/App.tsx:923-937). -/
def coerceImportedReports (vs : List JVal) : Except String (List Report) := do
  let rs ← ((List.range vs.length).zip vs).mapM
    (fun p => coerceImportedReport (importId p.1) p.2)
  pure (rs.filter (fun r =>
    !(r.requesterName == "") && !(r.campus == "") && !(r.importDate == "")))

/-- The key/value pairs `for...in` visits on the parsed `stock` value; a JS
array is `typeof 'object'` and enumerates its indices. -/
def stockFields : JVal → Option (List (String × JVal))
  | .obj fields => some fields
  | .arr xs => some (((List.range xs.length).zip xs).map
      (fun p => (toString p.1, p.2)))
  | _ => none

/-- Coercion of the imported stock table (src/App.tsx:945-959): keep only
entries whose `quantity` is a number, default `lastInDate` from a non-`'N/A'`
string, reset `lastOutDate` and `lastUpdateQuantity`. -/
def coerceImportedStock (fields : List (String × JVal)) : Stock :=
  fields.filterMap (fun p =>
    match p.2 with
    | .obj f2 =>
      (match alookup f2 "quantity" with
       | some (.num q) =>
         some (p.1,
           { quantity := q,
             lastInDate :=
               (match alookup f2 "lastInDate" with
                | some (.str d) => if d = "N/A" then "" else d
                | _ => ""),
             lastOutDate := "", lastUpdateQuantity := 0 })
       | _ => none)
    | _ => none)

/-- The validation/coercion pipeline of `handlePdfImport` (src/App.tsx:843-975)
from the parsed AI response onward; the input `Except` carries the earlier
failure points (no extractable text, AI call failure, JSON parse failure). -/
def runPdfImport (resp : Except String JVal) :
    Except String (List Report × Stock) :=
  match resp with
  | .error e => .error e
  | .ok v =>
    match v with
    | .obj _ | .arr _ =>
      (match getField v "reports" with
       | some (.arr rs) =>
         (match coerceImportedReports rs with
          | .error e => .error e
          | .ok newReports =>
            (match (getField v "stock").bind stockFields with
             | some fields => .ok (newReports, coerceImportedStock fields)
             | none =>
               .error "AI did not return a valid object in the stock key."))
       | _ =>
         .error "AI did not return a valid array of reports in the reports key.")
    | _ => .error "AI response is not a valid JSON object."

/-- The state effect of `handlePdfImport`: on any failure the caught exception
leaves both slices untouched; on success `setReports`/`setStock` replace them
wholesale. -/
def applyPdfImport (st : AppState) (resp : Except String JVal) : AppState :=
  match runPdfImport resp with
  | .error _ => st
  | .ok (rs, sk) => { reports := rs, stock := sk }

theorem shortfalls_ne_nil (stock : Stock) (items : Items)
    (h : ∃ iq ∈ items, availQty stock iq.1 < iq.2) :
    shortfalls stock items ≠ [] := by
  obtain ⟨iq, hmem, hlt⟩ := h
  have hin : (⟨iq.1, iq.2, availQty stock iq.1⟩ : Shortfall)
      ∈ shortfalls stock items :=
    List.mem_filterMap.mpr ⟨iq, hmem, by rw [if_pos hlt]⟩
  exact List.ne_nil_of_mem hin

theorem deltaShortfalls_ne_nil (stock : Stock) (orig upd : Items)
    (h : ∃ k, (k ∈ keys orig ∨ k ∈ keys upd) ∧
      0 < itemQ upd k - itemQ orig k ∧
      availQty stock k < itemQ upd k - itemQ orig k) :
    deltaShortfalls stock orig upd ≠ [] := by
  obtain ⟨k, hmem, h1, h2⟩ := h
  have hk : k ∈ dedupKeys (keys orig ++ keys upd) := by
    rw [mem_dedupKeys, List.mem_append]
    exact hmem
  have hin : (⟨k, itemQ upd k - itemQ orig k, availQty stock k⟩ : Shortfall)
      ∈ deltaShortfalls stock orig upd :=
    List.mem_filterMap.mpr ⟨k, hk, by rw [if_pos ⟨h1, h2⟩]⟩
  exact List.ne_nil_of_mem hin

theorem mem_shortfalls (stock : Stock) (items : Items) (sf : Shortfall)
    (h : sf ∈ shortfalls stock items) :
    sf.available = availQty stock sf.item ∧ sf.available < sf.requested ∧
      (sf.item, sf.requested) ∈ items := by
  obtain ⟨iq, hmem, heq⟩ := List.mem_filterMap.mp h
  by_cases hc : availQty stock iq.1 < iq.2
  · rw [if_pos hc] at heq
    cases heq
    exact ⟨rfl, hc, hmem⟩
  · rw [if_neg hc] at heq
    cases heq

theorem mem_deltaShortfalls (stock : Stock) (orig upd : Items) (sf : Shortfall)
    (h : sf ∈ deltaShortfalls stock orig upd) :
    sf.available = availQty stock sf.item ∧ sf.available < sf.requested ∧
      sf.requested = itemQ upd sf.item - itemQ orig sf.item := by
  obtain ⟨k, hmem, heq⟩ := List.mem_filterMap.mp h
  by_cases hc : 0 < itemQ upd k - itemQ orig k
      ∧ availQty stock k < itemQ upd k - itemQ orig k
  · rw [if_pos hc] at heq
    cases heq
    exact ⟨rfl, hc.2, rfl⟩
  · rw [if_neg hc] at heq
    cases heq

theorem alookup_upsert_self {α : Type} (m : List (String × α)) (k : String)
    (v : α) : alookup (upsert m k v) k = some v := by
  unfold upsert
  by_cases hs : (alookup m k).isSome
  · rw [if_pos hs]
    have h := alookup_map_keyed (fun a (w : α) => if a = k then v else w) m k
    rw [show (m.map fun p => (p.1, if p.1 = k then v else p.2))
        = (m.map fun p => (p.1, (fun a (w : α) => if a = k then v else w) p.1 p.2))
        from rfl, h]
    obtain ⟨w, hw⟩ := Option.isSome_iff_exists.mp hs
    rw [hw]
    simp

  · rw [if_neg hs, alookup_append,
      Option.not_isSome_iff_eq_none.mp hs]
    simp [alookup]

/-- Claim C4 counterexample: bulk clear does not leave the dates untouched —
clearing a ledger whose `Pen` entry has `lastInDate = "2024-01-01"` resets
that date to the empty string. -/
theorem c4_clear_counterexample :
    ((alookup (handleConfirmClearStock
        [("Pen", { quantity := 5, lastInDate := "2024-01-01",
                   lastOutDate := "2024-02-02", lastUpdateQuantity := 3 })])
        "Pen").map StockItem.lastInDate = some "")
    ∧ ((alookup
        ([("Pen", { quantity := 5, lastInDate := "2024-01-01",
                    lastOutDate := "2024-02-02", lastUpdateQuantity := 3 })] : Stock)
        "Pen").map StockItem.lastInDate = some "2024-01-01")
    ∧ ("" : String) ≠ "2024-01-01" := by
  exact ⟨rfl, rfl, by decide⟩

/-- Claim C4 (amended): the bulk clear operation sets every stock item's
quantity to 0 and also resets `lastInDate` and `lastOutDate` to the empty
string and `lastUpdateQuantity` to 0, for exactly the existing keys. -/
theorem c4_clear_resets_every_entry (stock : Stock) (k : String) :
    alookup (handleConfirmClearStock stock) k =
      (alookup stock k).map (fun _ => emptyStockItem) := by
  exact alookup_map_keyed (fun _ _ => emptyStockItem) stock k

/-- Claim C7: the available-weeks computation maps a date to the Monday-aligned
start of its week by subtracting `(dayOfWeek == 0 ? 6 : dayOfWeek - 1)` days
(Sunday = 0); a Sunday yields the Monday six days earlier, a Wednesday the
Monday two days earlier, and the result always falls on a Monday. -/
theorem c7_start_of_week (d : Int) :
    getStartOfWeek d = d - (if jsGetDay d = 0 then 6 else jsGetDay d - 1)
    ∧ jsGetDay (getStartOfWeek d) = 1
    ∧ (jsGetDay d = 0 → getStartOfWeek d = d - 6)
    ∧ (jsGetDay d = 3 → getStartOfWeek d = d - 2) := by
  unfold getStartOfWeek jsGetDay
  refine ⟨?_, ?_, ?_, ?_⟩ <;> omega

/-- Witness for C7 at the Sunday 2024-09-08 (week start 2024-09-02) and the
Wednesday 2024-09-11 (week start 2024-09-09). -/
theorem c7_start_of_week_witness :
    jsGetDay (daysFromCivil 2024 9 8) = 0
    ∧ getStartOfWeek (daysFromCivil 2024 9 8) = daysFromCivil 2024 9 2
    ∧ jsGetDay (daysFromCivil 2024 9 11) = 3
    ∧ getStartOfWeek (daysFromCivil 2024 9 11) = daysFromCivil 2024 9 9 := by
  refine ⟨by decide, ?_, by decide, ?_⟩
  · rw [(c7_start_of_week (daysFromCivil 2024 9 8)).2.2.1 (by decide)]
    decide
  · rw [(c7_start_of_week (daysFromCivil 2024 9 11)).2.2.2 (by decide)]
    decide

/-- Claim C8: a legacy stock entry stored as a bare number `n` is coerced on
load to `{quantity: n, lastInDate: today, lastOutDate: '', lastUpdateQuantity: 0}`. -/
theorem c8_bare_number_coercion (today : String) (n : Int) :
    migrateStockEntry today (some (.num n)) =
      { quantity := n, lastInDate := today, lastOutDate := "",
        lastUpdateQuantity := 0 } := rfl

/-- Claim C5: if any step of the PDF import pipeline fails, the report list
and stock mapping are left exactly unchanged and an error message is surfaced;
on success both are replaced wholesale, independently of the prior state (so
no shortfall check against existing stock is involved). -/
theorem c5_import_fail_keeps_state_success_replaces
    (st st' : AppState) (resp : Except String JVal) :
    (∀ e, runPdfImport resp = .error e → applyPdfImport st resp = st)
    ∧ (∀ rs sk, runPdfImport resp = .ok (rs, sk) →
        applyPdfImport st resp = { reports := rs, stock := sk }
        ∧ applyPdfImport st resp = applyPdfImport st' resp) := by
  constructor
  · intro e he
    simp [applyPdfImport, he]
  · intro rs sk hok
    constructor
    · simp [applyPdfImport, hok]
    · simp [applyPdfImport, hok]

/-- A prior state used to witness C5. -/
def c5State : AppState :=
  { reports := [{ id := "r0", requesterName := "x", campus := "y",
                  importDate := "2024-01-01", exportDate := "2024-01-02",
                  items := [("Pen", 1)], status := .Process }],
    stock := [("Pen", { quantity := 5, lastInDate := "a", lastOutDate := "b",
                        lastUpdateQuantity := 1 })] }

/-- A successful import payload used to witness C5. -/
def c5Payload : JVal :=
  .obj [("reports", .arr []),
        ("stock", .obj [("Bk", .obj [("quantity", .num 7),
                                     ("lastInDate", .str "2024-03-03")])])]

/-- Witness for C5: a parse failure leaves the prior state untouched, and the
successful payload replaces both slices wholesale. -/
theorem c5_import_witness :
    applyPdfImport c5State (.error "Could not extract any text from the PDF.")
      = c5State
    ∧ applyPdfImport c5State (.ok c5Payload) =
        { reports := [],
          stock := [("Bk", { quantity := 7, lastInDate := "2024-03-03",
                             lastOutDate := "", lastUpdateQuantity := 0 })] } := by
  constructor
  · exact (c5_import_fail_keeps_state_success_replaces c5State c5State
      (.error "Could not extract any text from the PDF.")).1 _ rfl
  · exact ((c5_import_fail_keeps_state_success_replaces c5State c5State
      (.ok c5Payload)).2 _ _ rfl).1

/-- The AI payload refuting claim C3: the import path copies the parsed items
map verbatim, including a zero quantity. -/
def c3Payload : JVal :=
  .obj [("reports", .arr [.obj
          [("requesterName", .str "A"), ("campus", .str "B"),
           ("importDate", .str "2024-01-01"),
           ("items", .obj [("Pen", .num 0)])]]),
        ("stock", .obj [])]

/-- Claim C3 counterexample: a PDF import whose payload maps the item `Pen`
to the quantity 0 produces a reachable report that stores 0 for `Pen` — the
entry is kept, not removed, so the stated invariant fails on the import path. -/
theorem c3_zero_quantity_counterexample :
    runPdfImport (.ok c3Payload) =
      .ok ([{ id := "imported-0", requesterName := "A", campus := "B",
              importDate := "2024-01-01", exportDate := "",
              items := [("Pen", 0)], status := .Process }], [])
    ∧ alookup ([("Pen", 0)] : Items) "Pen" = some 0
    ∧ ¬ (0 : Int) > 0 := by
  exact ⟨rfl, rfl, by decide⟩

/-- Claim C3 (amended): reports built through the form's item entry never
store a zero or negative quantity — such entries are removed; the PDF import
path, by contrast, stores the parsed items map verbatim and can store zero or
negative quantities. -/
theorem c3_form_entry_keeps_items_positive (items : Items) (item value : String)
    (h : ∀ p ∈ items, 0 < p.2) :
    ∀ p ∈ handleItemQuantityChange items item value, 0 < p.2 := by
  intro p hp
  unfold handleItemQuantityChange at hp
  cases hq : jsParseInt value with
  | none =>
    rw [hq] at hp
    exact h p (List.mem_of_mem_filter hp)
  | some q =>
    rw [hq] at hp
    dsimp only at hp
    by_cases h0 : 0 < q
    · rw [if_pos h0] at hp
      unfold upsert at hp
      by_cases hs : (alookup items item).isSome
      · rw [if_pos hs] at hp
        obtain ⟨x, hx, hxe⟩ := List.mem_map.mp hp
        by_cases he : x.1 = item
        · rw [if_pos he] at hxe
          rw [← hxe]
          exact h0
        · rw [if_neg he] at hxe
          rw [← hxe]
          exact h x hx
      · rw [if_neg hs] at hp
        rcases List.mem_append.mp hp with h1 | h2
        · exact h p h1
        · rw [List.mem_singleton.mp h2]
          exact h0
    · rw [if_neg h0] at hp
      exact h p (List.mem_of_mem_filter hp)

/-- Witness for the amended C3: entering quantity 5 for `Bk` on a form already
holding `{Pen: 2}` stores the pair `(Bk, 5)`, and the theorem applied at that
concrete input yields its positivity. -/
theorem c3_form_entry_witness :
    ("Bk", (5 : Int)) ∈ handleItemQuantityChange [("Pen", 2)] "Bk" "5"
    ∧ (0 : Int) < 5 :=
  ⟨by decide,
   c3_form_entry_keeps_items_positive [("Pen", 2)] "Bk" "5" (by decide)
     ("Bk", 5) (by decide)⟩

theorem saveStockEntry_quantity (stock : Stock) (today k : String)
    (s : StockItem) : (saveStockEntry stock today k s).quantity = s.quantity := by
  unfold saveStockEntry
  split_ifs <;> rfl

/-- Claim C9: the quantity committed by the manual bulk stock edit is always a
non-negative integer — non-numeric input and values below 0 are coerced to 0
by `handleTempStockChange`, and `handleSaveStock` commits exactly the temp
ledger's quantities, so the manual edit path cannot drive a quantity negative. -/
theorem c9_manual_edit_nonneg (stock temp : Stock) (item value today : String) :
    (alookup (handleTempStockChange temp item value) item).map
        StockItem.quantity
      = some (match jsParseInt value with
              | none => 0
              | some n => if n < 0 then 0 else n)
    ∧ (0 : Int) ≤ (match jsParseInt value with
                   | none => 0
                   | some n => if n < 0 then 0 else n)
    ∧ ∀ k, (alookup (handleSaveStock stock temp today) k).map
          StockItem.quantity
        = (alookup temp k).map StockItem.quantity := by
  refine ⟨?_, ?_, ?_⟩
  · rw [handleTempStockChange, alookup_upsert_self]
    rfl
  · cases hq : jsParseInt value with
    | none => simp
    | some n =>
      by_cases hn : n < 0
      · simp [hn]
      · simp [hn]
        omega
  · intro k
    rw [handleSaveStock,
      alookup_map_keyed (fun a s => saveStockEntry stock today a s) temp k]
    cases hx : alookup temp k with
    | none => rfl
    | some s => simp [saveStockEntry_quantity]

/-- Claim C1: for every Done-consuming transition — create with status Done,
Process→Done update, Done→Done update with a positive item delta — if any
item's effective requested/delta quantity exceeds its available stock, the
whole operation is rejected with the state returned exactly unchanged and an
itemized {item, requested, available} shortfall list, each entry of which
records the current availability and a genuine excess. -/
theorem c1_done_consuming_rejected_atomically
    (st : AppState) (form : FormData) (id today selId : String) (orig : Report) :
    (formComplete form = true → form.status = .Done →
      (∃ iq ∈ form.items, availQty st.stock iq.1 < iq.2) →
      handleAddReport st form id today =
        (st, some (.insufficient (shortfalls st.stock form.items))))
    ∧ (st.reports.find? (fun r => r.id == selId) = some orig →
        orig.status = .Process → form.status = .Done →
        (∃ iq ∈ form.items, availQty st.stock iq.1 < iq.2) →
        handleUpdateReport st selId form today =
          (st, some (shortfalls st.stock form.items)))
    ∧ (st.reports.find? (fun r => r.id == selId) = some orig →
        orig.status = .Done → form.status = .Done →
        (∃ k, (k ∈ keys orig.items ∨ k ∈ keys form.items) ∧
          0 < itemQ form.items k - itemQ orig.items k ∧
          availQty st.stock k < itemQ form.items k - itemQ orig.items k) →
        handleUpdateReport st selId form today =
          (st, some (deltaShortfalls st.stock orig.items form.items)))
    ∧ (∀ sf ∈ shortfalls st.stock form.items,
        sf.available = availQty st.stock sf.item ∧ sf.available < sf.requested ∧
          (sf.item, sf.requested) ∈ form.items)
    ∧ (∀ sf ∈ deltaShortfalls st.stock orig.items form.items,
        sf.available = availQty st.stock sf.item ∧ sf.available < sf.requested ∧
          sf.requested = itemQ form.items sf.item - itemQ orig.items sf.item) := by
  refine ⟨?_, ?_, ?_, ?_, ?_⟩
  · intro hc hd hex
    have hne := shortfalls_ne_nil st.stock form.items hex
    simp [handleAddReport, hc, hd, hne]
  · intro hf ho hd hex
    have hne := shortfalls_ne_nil st.stock form.items hex
    simp [handleUpdateReport, hf, updateShortfalls, ho, hd, hne]
  · intro hf ho hd hex
    have hne := deltaShortfalls_ne_nil st.stock orig.items form.items hex
    simp [handleUpdateReport, hf, updateShortfalls, ho, hd, hne]
  · intro sf hsf
    exact mem_shortfalls st.stock form.items sf hsf
  · intro sf hsf
    exact mem_deltaShortfalls st.stock orig.items form.items sf hsf

/-- Prior state for the C1 witness: five pens in stock. -/
def c1State : AppState :=
  { reports := [],
    stock := [("Pen", { quantity := 5, lastInDate := "", lastOutDate := "",
                        lastUpdateQuantity := 0 })] }

/-- Form for the C1 witness: a Done request for ten pens. -/
def c1Form : FormData :=
  { requesterName := "a", campus := "b", importDate := "2024-01-01",
    exportDate := "2024-01-02", items := [("Pen", 10)], status := .Done }

/-- Witness for C1: with stock `Pen: 5`, creating a Done report for `Pen: 10`
is rejected, state unchanged, with the shortfall `(Pen, requested 10,
available 5)`. -/
theorem c1_done_consuming_rejected_witness :
    handleAddReport c1State c1Form "id1" "2024-06-01" =
      (c1State, some (.insufficient [⟨"Pen", 10, 5⟩])) := by
  have h := (c1_done_consuming_rejected_atomically c1State c1Form "id1"
      "2024-06-01" "" (mkReport "x" c1Form)).1
    (by decide) rfl ⟨("Pen", 10), by decide, by decide⟩
  exact h

/-- Claim C2: on a successful Done→Done update, each item named in the
original or updated items map and present in stock changes quantity by exactly
`originalQty - updatedQty` (i.e. stock is reduced by the positive delta of the
request), with `lastOutDate = today` when more is taken and
`lastInDate = today` when items are returned. -/
theorem c2_done_done_applies_delta
    (st : AppState) (selId today k : String) (form : FormData) (orig : Report)
    (s : StockItem)
    (hfind : st.reports.find? (fun r => r.id == selId) = some orig)
    (ho : orig.status = .Done) (hf : form.status = .Done)
    (hok : deltaShortfalls st.stock orig.items form.items = [])
    (hk : k ∈ keys orig.items ∨ k ∈ keys form.items)
    (hs : alookup st.stock k = some s) :
    (alookup (handleUpdateReport st selId form today).1.stock k).map
        StockItem.quantity
      = some (s.quantity + (itemQ orig.items k - itemQ form.items k))
    ∧ (itemQ orig.items k - itemQ form.items k < 0 →
        (alookup (handleUpdateReport st selId form today).1.stock k).map
            StockItem.lastOutDate = some today)
    ∧ (0 < itemQ orig.items k - itemQ form.items k →
        (alookup (handleUpdateReport st selId form today).1.stock k).map
            StockItem.lastInDate = some today) := by
  have hstock : (handleUpdateReport st selId form today).1.stock
      = applyDoneDone st.stock orig.items form.items today := by
    simp [handleUpdateReport, hfind, updateShortfalls, ho, hf, hok, updateStock]
  have hmem : k ∈ dedupKeys (keys orig.items ++ keys form.items) := by
    rw [mem_dedupKeys, List.mem_append]
    exact hk
  have hl : alookup (applyDoneDone st.stock orig.items form.items today) k
      = some (doneDoneUpd orig.items form.items today k s) := by
    rw [applyDoneDone,
      alookup_stepKeys_mem _ _ _ _ (nodup_dedupKeys _) hmem, hs]
    rfl
  rw [hstock, hl]
  unfold doneDoneUpd
  by_cases h0 : itemQ orig.items k - itemQ form.items k = 0
  · rw [if_pos h0]
    refine ⟨by simp [h0], ?_, ?_⟩
    · intro hlt
      omega
    · intro hgt
      omega
  · rw [if_neg h0]
    refine ⟨rfl, ?_, ?_⟩
    · intro hlt
      have hng : ¬ 0 < itemQ orig.items k - itemQ form.items k := by omega
      simp [hng]
    · intro hgt
      simp [hgt]

/-- Original report for the C2 witness: a Done report for two books. -/
def c2Orig : Report :=
  { id := "r1", requesterName := "a", campus := "c",
    importDate := "2024-01-01", exportDate := "2024-01-02",
    items := [("Bk", 2)], status := .Done }

/-- Prior state for the C2 witness: `Bk` stock at 10. -/
def c2State : AppState :=
  { reports := [c2Orig],
    stock := [("Bk", { quantity := 10, lastInDate := "", lastOutDate := "",
                       lastUpdateQuantity := 0 })] }

/-- Updated form for the C2 witness: the same report now asking five books. -/
def c2Form : FormData :=
  { requesterName := "a", campus := "c", importDate := "2024-01-01",
    exportDate := "2024-01-02", items := [("Bk", 5)], status := .Done }

/-- Witness for C2: editing the Done report from `{Bk: 2}` to `{Bk: 5}` with
`Bk` stock at 10 succeeds, drives `Bk` to 7 and sets its `lastOutDate` to
today. -/
theorem c2_done_done_applies_delta_witness :
    (alookup (handleUpdateReport c2State "r1" c2Form "2024-06-01").1.stock
        "Bk").map StockItem.quantity = some 7
    ∧ (alookup (handleUpdateReport c2State "r1" c2Form "2024-06-01").1.stock
        "Bk").map StockItem.lastOutDate = some "2024-06-01" := by
  have h := c2_done_done_applies_delta c2State "r1" "2024-06-01" "Bk" c2Form
      c2Orig { quantity := 10, lastInDate := "", lastOutDate := "",
               lastUpdateQuantity := 0 }
      rfl rfl rfl rfl (Or.inl (by decide)) rfl
  exact ⟨h.1, h.2.1 (by decide)⟩

/-- Claim C6: deleting a report whose status was Done adds each of its item
quantities back to the corresponding stock entry and stamps that entry's
`lastInDate` with today; deleting a Process report leaves the stock mapping
unchanged. -/
theorem c6_delete_done_restores_stock
    (st : AppState) (selId today k : String) (q : Int) (s : StockItem)
    (r : Report)
    (hfind : st.reports.find? (fun x => x.id == selId) = some r) :
    (r.status = .Done → (keys r.items).Nodup → (k, q) ∈ r.items →
      alookup st.stock k = some s →
      alookup (handleConfirmDelete st selId today).stock k =
        some { s with quantity := s.quantity + q, lastInDate := today,
                      lastUpdateQuantity := q })
    ∧ (r.status = .Process →
        (handleConfirmDelete st selId today).stock = st.stock) := by
  constructor
  · intro hd hnd hmem hs
    have hstock : (handleConfirmDelete st selId today).stock
        = addBackItems st.stock r.items today := by
      simp [handleConfirmDelete, hfind, hd]
    rw [hstock, addBackItems, alookup_stepItems_mem _ _ _ _ _ hnd hmem, hs]
    rfl
  · intro hp
    simp [handleConfirmDelete, hfind, hp]

/-- Report for the C6 witness: a Done report holding four cards. -/
def c6Report : Report :=
  { id := "r1", requesterName := "a", campus := "c",
    importDate := "2024-01-01", exportDate := "2024-01-02",
    items := [("Card", 4)], status := .Done }

/-- Prior state for the C6 witness: `Card` stock at 1. -/
def c6State : AppState :=
  { reports := [c6Report],
    stock := [("Card", { quantity := 1, lastInDate := "", lastOutDate := "",
                         lastUpdateQuantity := 0 })] }

/-- Witness for C6: deleting the Done report `{Card: 4}` with stock `Card: 1`
restores `Card` to 5 with `lastInDate = today`. -/
theorem c6_delete_done_restores_stock_witness :
    alookup (handleConfirmDelete c6State "r1" "2024-06-01").stock "Card" =
      some { quantity := 5, lastInDate := "2024-06-01", lastOutDate := "",
             lastUpdateQuantity := 4 } := by
  have h := (c6_delete_done_restores_stock c6State "r1" "2024-06-01" "Card" 4
      { quantity := 1, lastInDate := "", lastOutDate := "",
        lastUpdateQuantity := 0 } c6Report rfl).1
    rfl (by decide) (by decide) rfl
  exact h

/-- Claim C10: every report-lifecycle reconciliation (create, the update
transitions, delete) preserves the exact key set of the stock mapping — no new
stock key is ever created — and in particular deleting a Done report naming an
item absent from stock does not create an entry for it. -/
theorem c10_reconciliation_never_creates_keys
    (st : AppState) (form : FormData) (id today selId k : String) :
    keys (handleAddReport st form id today).1.stock = keys st.stock
    ∧ keys (handleUpdateReport st selId form today).1.stock = keys st.stock
    ∧ keys (handleConfirmDelete st selId today).stock = keys st.stock
    ∧ (alookup st.stock k = none →
        alookup (handleConfirmDelete st selId today).stock k = none) := by
  have hdel : keys (handleConfirmDelete st selId today).stock = keys st.stock := by
    unfold handleConfirmDelete
    cases hf : st.reports.find? (fun r => r.id == selId) with
    | none => rfl
    | some r =>
      by_cases hd : r.status = .Done
      · simp [hd, addBackItems, keys_stepItems]
      · simp [hd]
  refine ⟨?_, ?_, hdel, ?_⟩
  · unfold handleAddReport
    split_ifs <;> simp [deductItems, keys_stepItems]
  · unfold handleUpdateReport
    cases hf : st.reports.find? (fun r => r.id == selId) with
    | none => rfl
    | some orig =>
      dsimp only
      by_cases hsf : updateShortfalls st.stock orig.status orig.items
          form.status form.items = []
      · rw [if_pos hsf]
        cases ho : orig.status <;> cases hu : form.status <;>
          simp [updateStock, deductItems, addBackItems, applyDoneDone,
            keys_stepItems, keys_stepKeys]
      · rw [if_neg hsf]
  · intro hn
    rw [alookup_eq_none_iff] at hn ⊢
    rw [hdel]
    exact hn

/-- State for the C10 witness: a Done report naming `Ghost`, an item absent
from the stock mapping. -/
def c10State : AppState :=
  { reports := [{ id := "r1", requesterName := "a", campus := "c",
                  importDate := "2024-01-01", exportDate := "2024-01-02",
                  items := [("Ghost", 3)], status := .Done }],
    stock := [("Pen", { quantity := 5, lastInDate := "", lastOutDate := "",
                        lastUpdateQuantity := 0 })] }

/-- Witness for C10: deleting the Done report that names the unknown item
`Ghost` does not create a `Ghost` stock entry. -/
theorem c10_reconciliation_never_creates_keys_witness :
    alookup (handleConfirmDelete c10State "r1" "2024-06-01").stock "Ghost"
      = none := by
  exact (c10_reconciliation_never_creates_keys c10State
      { requesterName := "", campus := "", importDate := "", exportDate := "",
        items := [], status := .Process } "id" "2024-06-01" "r1" "Ghost").2.2.2
    rfl

end TVS
